import Mathlib

/-!
Verification of the client-side order reconciliation state machine of the
captain-app repository (order-taking screen).

The definitions below are a shallow embedding of the TypeScript source.
The authoritative implementation is the final iteration of the order screen
(`src/unnamed/part_004`); the earlier iteration `src/app/(tabs)/order.tsx`
is embedded separately under the `Tabs` namespace where a claim refers to it.

Conventions of the embedding:
* JavaScript numbers used as quantities are embedded as `Nat`
  (`Math.max(0, q - 1)` becomes truncated subtraction),
  and prices/tax amounts as `Rat` with `Math.floor` as `Int.floor`.
* Optional JS fields become `Option`; the JS `a || b` operator on strings
  and numbers (where `""`, `0` and `undefined` are falsy) is embedded by the
  `jsOrStr` / `jsOrQ` helpers.
* `Date.now()`-based client-generated local ids are nondeterministic; the
  functions that create them take the generated id as an explicit argument.
* Presentation-only fields (category, unit-of-measure label, payment
  method, customer name, audit timestamps) are elided: no claim mentions
  them and they do not feed back into the reconciliation state.
-/

namespace CaptainApp

/-- Catalog product as carried inside an order line (`interface Product`;
only the fields the reconciliation logic reads: `_id`, `name`, `price?`). -/
structure Product where
  id : String
  name : String
  price : Option ℚ
deriving Repr, DecidableEq

/-- The line-status tag (`type ItemStatus = 'original' | 'addon' | 'removed'`). -/
inductive ItemStatus where
  | original
  | addon
  | removed
deriving Repr, DecidableEq

/-- A draft order line (`interface OrderItem`).  `itemStatus = none` embeds the
JS `undefined` status, which the source treats as `original`. -/
structure OrderItem where
  product : Product
  quantity : ℕ
  itemStatus : Option ItemStatus
  originalQuantity : Option ℕ
  localId : Option String
  serverItemIds : Option (List String)
deriving Repr, DecidableEq

/-- A populated `productId` reference inside a server bill item
(`bi.productId` when it is an object; a raw id string is embedded with
`name = none` and `price = none`). -/
structure PopulatedProduct where
  id : String
  name : Option String
  price : Option ℚ
deriving Repr, DecidableEq

/-- A server-side bill line item as consumed by the client
(fields read by the sync and diff code: `_id`, `productId`, `name`,
`price`, `quantity`, `status`).  A missing `quantity` is embedded as `0`
because every read in the source is `bi.quantity || 0`. -/
structure BillItem where
  id : String
  productId : Option PopulatedProduct
  name : Option String
  price : Option ℚ
  quantity : ℕ
  status : String
deriving Repr, DecidableEq

/-- The server bill document (fields read by the client). -/
structure Bill where
  id : Option String
  billNumber : Option String
  status : String
  items : List BillItem
deriving Repr, DecidableEq

/-- The payload of a `getTableStatus` response: `{status, data?}`. -/
structure TableStatusResponse where
  status : String
  data : Option Bill
deriving Repr, DecidableEq

/-- Tax settings fetched from the server (`{cgst, sgst}`). -/
structure TaxSettings where
  cgst : ℚ
  sgst : ℚ
deriving Repr, DecidableEq

/-- JS `a || b` for an optional string (`undefined` and `""` are falsy). -/
def jsOrStr (a : Option String) (b : String) : String :=
  match a with
  | some s => if s = "" then b else s
  | none => b

/-- JS `a || b` for an optional number (`undefined` and `0` are falsy). -/
def jsOrQ (a : Option ℚ) (b : ℚ) : ℚ :=
  match a with
  | some x => if x = 0 then b else x
  | none => b

/-- JS `s || null` for a nullable string field (`bill._id || null`). -/
def jsOrNullStr (a : Option String) : Option String :=
  match a with
  | some s => if s = "" then none else some s
  | none => none

/-- The product id of a server bill item:
`const pid = bi.productId?._id || bi.productId; if (!pid) return;`
(an absent reference, or an empty id, is skipped). -/
def pidOf (bi : BillItem) : Option String :=
  match bi.productId with
  | some p => if p.id = "" then none else some p.id
  | none => none

/-- One step of building a JS `Map<string, any[]>` keyed by product id:
if the key is present, push onto its group; otherwise append a new
singleton group (JS `Map` preserves insertion order). -/
def insertGroup : List (String × List BillItem) → String → BillItem →
    List (String × List BillItem)
  | [], pid, bi => [(pid, [bi])]
  | (k, g) :: rest, pid, bi =>
    if k = pid then (k, g ++ [bi]) :: rest
    else (k, g) :: insertGroup rest pid bi

/-- One `forEach` iteration of the grouping loop: skip an item without a
usable product id, otherwise push it into its product's group. -/
def groupStep (acc : List (String × List BillItem)) (bi : BillItem) :
    List (String × List BillItem) :=
  match pidOf bi with
  | none => acc
  | some pid => insertGroup acc pid bi

/-- Grouping of server bill items by product id.  Both `fetchLastOrder`
(`itemsByProduct`) and `updateKOT` (`serverItemsByProduct`) run this same
`forEach`/`Map` loop over `bill.items`. -/
def groupItemsByProduct (items : List BillItem) : List (String × List BillItem) :=
  items.foldl groupStep []

/-- First-match lookup in a grouped association list (JS `map.get(k)`). -/
def lookupGroup (k : String) : List (String × List BillItem) → Option (List BillItem)
  | [] => none
  | (k', g) :: rest => if k' = k then some g else lookupGroup k rest

/-- `proto.productId?.name || proto.name || ''` -/
def resolvedName (proto : BillItem) : String :=
  jsOrStr (proto.productId.bind (fun p => p.name)) (jsOrStr proto.name "")

/-- `proto.price || proto.productId?.price || 0` -/
def resolvedPrice (proto : BillItem) : ℚ :=
  jsOrQ proto.price (jsOrQ (proto.productId.bind (fun p => p.price)) 0)

/-- The order lines produced for one product group during sync
(`fetchLastOrder`, the body of `itemsByProduct.forEach`): active rows
(status not `canceled` and positive quantity) collapse into one `original`
line whose quantity is their sum; canceled rows collapse into one
`removed` line with quantity 0 and `originalQuantity` their summed
quantity. -/
def buildLines (pid : String) (group : List BillItem) : List OrderItem :=
  let active := group.filter (fun g => ¬ g.status = "canceled" ∧ 0 < g.quantity)
  let canceled := group.filter (fun g => g.status = "canceled")
  (match active with
   | [] => []
   | proto :: _ =>
     let totalQty := (active.map (fun it => it.quantity)).sum
     [{ product := { id := pid, name := resolvedName proto, price := some (resolvedPrice proto) },
        quantity := totalQty,
        itemStatus := some ItemStatus.original,
        originalQuantity := some totalQty,
        localId := some ("srv-" ++ pid),
        serverItemIds := some ((active.map (fun a => a.id)).filter (fun s => ¬ s = "")) }]) ++
  (match canceled with
   | [] => []
   | proto :: _ =>
     let canceledTotal := (canceled.map (fun it => it.quantity)).sum
     [{ product := { id := pid, name := resolvedName proto, price := some (resolvedPrice proto) },
        quantity := 0,
        itemStatus := some ItemStatus.removed,
        originalQuantity := some canceledTotal,
        localId := some ("srv-removed-" ++ pid),
        serverItemIds := some ((canceled.map (fun c => c.id)).filter (fun s => ¬ s = "")) }])

/-- The `mappedItems` array of `fetchLastOrder`: group the bill's items by
product id and emit the collapsed lines per group, in insertion order. -/
def mapServerItems (items : List BillItem) : List OrderItem :=
  (groupItemsByProduct items).foldl (fun acc g => acc ++ buildLines g.1 g.2) []

/-- The local state cells of the order screen that the reconciliation logic
reads and writes.  `alerts` records the user-visible alert titles raised so
far (an `Alert.alert` call appends its title). -/
structure OrderScreenState where
  orderItems : List OrderItem
  originalSubmittedItems : List OrderItem
  existingBillId : Option String
  billNumber : Option String
  hasPendingChanges : Bool
  suppressRemovedAfterFetch : Bool
  alerts : List String
deriving Repr, DecidableEq

/-- The sync step of `fetchLastOrder` in the final order screen
(`src/unnamed/part_004`), applied to a `getTableStatus` response.
When the response has `status === 'success'` and carries bill data, the
draft is rebuilt from the bill unconditionally — the bill's own status is
not inspected.  Otherwise only `existingBillId` is cleared.  The source's
`localId` backfill (`m.localId ?? ...`) is a no-op because every mapped
line already carries a `localId`, so it is elided. -/
def fetchLastOrder (st : OrderScreenState) (resp : TableStatusResponse) :
    OrderScreenState :=
  match resp.data with
  | some bill =>
    if resp.status = "success" then
      let mapped := mapServerItems bill.items
      let finalMapped :=
        if st.suppressRemovedAfterFetch then
          mapped.filter (fun i => ¬ i.itemStatus = some ItemStatus.removed)
        else mapped
      { st with
        existingBillId := jsOrNullStr bill.id,
        billNumber := jsOrNullStr bill.billNumber,
        orderItems := finalMapped,
        originalSubmittedItems :=
          finalMapped.filter (fun i => i.itemStatus = some ItemStatus.original),
        suppressRemovedAfterFetch := false }
    else { st with existingBillId := none }
  | none => { st with existingBillId := none }

namespace Tabs

/-- State cells of the earlier order-screen iteration
(`src/app/(tabs)/order.tsx`) touched by its `fetchLastOrder`. -/
structure State where
  existingBillId : Option String
  billNumber : Option String
  orderItems : List OrderItem
deriving Repr, DecidableEq

/-- Returns `true` when an optional price is JS-truthy (`product.price`
with `undefined` and `0` falsy). -/
def truthyPrice (a : Option ℚ) : Bool :=
  match a with
  | some x => decide (¬ x = 0)
  | none => false

/-- The item mapping of `order.tsx`'s `fetchLastOrder`: keep rows with
`status === 'active'` and a `productId`, resolve the product from the
catalog list when present, otherwise construct it from the API data, and
backfill a falsy price from the API row. -/
def mapTabsItems (products : List Product) (items : List BillItem) : List OrderItem :=
  items.filterMap (fun it =>
    match it.productId with
    | none => none
    | some pp =>
      if it.status = "active" then
        let base : Product :=
          match products.find? (fun p => p.id = pp.id) with
          | some ex => ex
          | none => { id := pp.id, name := jsOrStr pp.name "", price := pp.price }
        let product :=
          if ¬ truthyPrice base.price ∧ truthyPrice pp.price then
            { base with price := pp.price }
          else base
        some { product := product, quantity := it.quantity,
               itemStatus := none, originalQuantity := none,
               localId := none, serverItemIds := none }
      else none)

/-- The bill statuses `order.tsx` treats as an open, editable order. -/
def activeStatuses : List String := ["pending", "preparing", "ready"]

/-- `fetchLastOrder` of the earlier iteration (`src/app/(tabs)/order.tsx`,
lines 126-185): a `success` response whose bill status is outside
`{pending, preparing, ready}` clears the draft and the bill id — the table
is treated as free despite `status === 'success'`. -/
def fetchLastOrder (products : List Product) (st : State)
    (resp : TableStatusResponse) : State :=
  match resp.data with
  | some bill =>
    if resp.status = "success" then
      if ¬ activeStatuses.contains bill.status then
        { st with existingBillId := none, orderItems := [] }
      else
        { existingBillId := bill.id,
          billNumber := bill.billNumber,
          orderItems := mapTabsItems products bill.items }
    else if resp.status = "table-free" then
      { st with existingBillId := none, orderItems := [] }
    else st
  | none =>
    if resp.status = "table-free" then
      { st with existingBillId := none, orderItems := [] }
    else st

end Tabs

/-- The effective unit price of a product:
`(item.product as any)?.price ? Number(price) : 0` — a missing (or zero,
JS-falsy) price is treated as 0, never as an error. -/
def jsPrice (p : Product) : ℚ :=
  match p.price with
  | some x => x
  | none => 0

/-- `handleAddToOrder(product)`: the lookup for an existing entry skips
`removed` lines.  On a submitted bill an `original` match spawns or
increments a separate `addon` line; otherwise the matched line's quantity
is incremented (addressed by product id).  A brand-new line is `addon`
when a bill exists, unclassified otherwise.  `freshId` stands for the
client-generated `local-${Date.now()}-...` id of the brand-new line (the
addon line created next to an `original` is pushed without a `localId` in
the source). -/
def handleAddToOrder (existingBillId : Option String) (orderItems : List OrderItem)
    (product : Product) (freshId : String) : List OrderItem :=
  match orderItems.find? (fun i => i.product.id = product.id ∧
      ¬ i.itemStatus = some ItemStatus.removed) with
  | some existingItem =>
    if existingItem.itemStatus = some ItemStatus.removed then
      -- dead branch kept from the source: the lookup above excludes removed lines
      orderItems.map (fun i =>
        if i.product.id = product.id then
          { i with quantity := 1, itemStatus := some ItemStatus.addon,
                   originalQuantity := none }
        else i)
    else if existingBillId.isSome ∧ existingItem.itemStatus = some ItemStatus.original then
      match orderItems.find? (fun i => i.product.id = product.id ∧
          i.itemStatus = some ItemStatus.addon) with
      | some _ =>
        orderItems.map (fun i =>
          if i.product.id = product.id ∧ i.itemStatus = some ItemStatus.addon then
            { i with quantity := i.quantity + 1 }
          else i)
      | none =>
        orderItems ++ [{ product := product, quantity := 1,
                         itemStatus := some ItemStatus.addon,
                         originalQuantity := none, localId := none,
                         serverItemIds := none }]
    else
      orderItems.map (fun i =>
        if i.product.id = product.id then { i with quantity := i.quantity + 1 } else i)
  | none =>
    orderItems ++ [{ product := product, quantity := 1,
                     itemStatus := if existingBillId.isSome then some ItemStatus.addon else none,
                     originalQuantity := none, localId := some freshId,
                     serverItemIds := none }]

/-- `handleDecrementQuantity(localId)`: decrementing an `original` line on a
submitted bill reduces its visible quantity and accumulates the removed
amount into a companion `removed` line for the same product (created with
client id `freshId` when absent), whose `originalQuantity` is the
originally submitted total.  Non-original lines are decremented in place
and dropped at zero. -/
def handleDecrementQuantity (existingBillId : Option String)
    (originalSubmittedItems : List OrderItem) (orderItems : List OrderItem)
    (localId : String) (freshId : String) : List OrderItem :=
  match orderItems.findIdx? (fun i => i.localId = some localId) with
  | none => orderItems
  | some idx =>
    match orderItems[idx]? with
    | none => orderItems
    | some target =>
      let newQuantity := target.quantity - 1
      let isOriginal := target.itemStatus = none ∨ target.itemStatus = some ItemStatus.original
      if isOriginal ∧ existingBillId.isSome then
        let prevQty := target.quantity
        let removedDelta := prevQty - newQuantity
        let newItems := orderItems.set idx { target with quantity := newQuantity }
        let removedIdx? := newItems.findIdx? (fun i =>
          i.product.id = target.product.id ∧ i.itemStatus = some ItemStatus.removed)
        let origSubmitted? := originalSubmittedItems.find? (fun o =>
          o.product.id = target.product.id)
        match removedIdx? with
        | some removedIdx =>
          match newItems[removedIdx]? with
          | none => newItems
          | some existingRemoved =>
            let originalTotal :=
              match origSubmitted? with
              | some o => o.quantity
              | none => prevQty + existingRemoved.quantity
            newItems.set removedIdx
              { existingRemoved with
                quantity := existingRemoved.quantity + removedDelta,
                originalQuantity := some originalTotal }
        | none =>
          let originalTotal :=
            match origSubmitted? with
            | some o => o.quantity
            | none => prevQty
          newItems ++ [{ product := target.product, quantity := removedDelta,
                         itemStatus := some ItemStatus.removed,
                         originalQuantity := some originalTotal,
                         localId := some freshId, serverItemIds := none }]
      else
        if newQuantity = 0 then orderItems.eraseIdx idx
        else orderItems.set idx { target with quantity := newQuantity }

/-- The restore action of the Removed Items section: the line matching the
pressed item's `localId` gets `quantity = originalQuantity || 1`, status
`original`, and its `originalQuantity` cleared. -/
def restoreRemoved (orderItems : List OrderItem) (item : OrderItem) : List OrderItem :=
  orderItems.map (fun i =>
    if i.localId = item.localId then
      { i with
        quantity := (match item.originalQuantity with
                     | some q => if q = 0 then 1 else q
                     | none => 1),
        itemStatus := some ItemStatus.original,
        originalQuantity := none }
    else i)

/-- `getTotalOrderCost()`: the subtotal over the draft, excluding `removed`
lines. -/
def getTotalOrderCost (orderItems : List OrderItem) : ℚ :=
  (orderItems.filter (fun i => ¬ i.itemStatus = some ItemStatus.removed)).foldl
    (fun total i => total + jsPrice i.product * i.quantity) 0

/-- Result record of `computeTaxAmounts`. -/
structure TaxAmounts where
  sgstAmount : ℚ
  cgstAmount : ℚ
  totalWithTax : ℚ
  payableAmount : ℤ
deriving Repr, DecidableEq

/-- `computeTaxAmounts(subtotal)`: percent taxes and the floored payable
amount (`Math.floor`, not rounding). -/
def computeTaxAmounts (ts : TaxSettings) (subtotal : ℚ) : TaxAmounts :=
  let sgstAmount := subtotal * ts.sgst / 100
  let cgstAmount := subtotal * ts.cgst / 100
  let totalWithTax := subtotal + sgstAmount + cgstAmount
  { sgstAmount := sgstAmount, cgstAmount := cgstAmount,
    totalWithTax := totalWithTax, payableAmount := ⌊totalWithTax⌋ }

/-- One entry of `updateKOT`'s `editedItems` diff:
`{itemId, newQuantity, changeType: 'edit' | 'canceled'}`. -/
structure EditedItem where
  itemId : String
  newQuantity : ℕ
  changeType : String
deriving Repr, DecidableEq

/-- One entry of `updateKOT`'s `addedItems`:
`{productId, name, quantity, price}`. -/
structure AddedItem where
  productId : String
  name : String
  quantity : ℕ
  price : ℚ
deriving Repr, DecidableEq

/-- JS `Map.set` on a map keyed by product id: overwrite the first matching
key in place, else append. -/
def mapSetNat : List (String × ℕ) → String → ℕ → List (String × ℕ)
  | [], k, v => [(k, v)]
  | (k', v') :: rest, k, v =>
    if k' = k then (k', v) :: rest
    else (k', v') :: mapSetNat rest k v

/-- JS `Map.has`/`Map.get` on the desired-quantity map. -/
def mapGetNat (k : String) : List (String × ℕ) → Option ℕ
  | [] => none
  | (k', v) :: rest => if k' = k then some v else mapGetNat k rest

/-- `updateKOT`'s `desiredByProduct` map: each `original` (or untagged)
line sets its product's desired quantity; a `removed` line falls back to
the sibling original's quantity, or to the submitted quantity minus the
removed amount when no original line remains.  `addon` lines set nothing. -/
def desiredByProductOf (orderItems originalSubmittedItems : List OrderItem) :
    List (String × ℕ) :=
  orderItems.foldl
    (fun m oi =>
      let pid := oi.product.id
      if oi.itemStatus = some ItemStatus.original ∨ oi.itemStatus = none then
        mapSetNat m pid oi.quantity
      else if oi.itemStatus = some ItemStatus.removed then
        match orderItems.find? (fun i => i.product.id = pid ∧
            (i.itemStatus = some ItemStatus.original ∨ i.itemStatus = none)) with
        | some orig => mapSetNat m pid orig.quantity
        | none =>
          let submittedQty :=
            match originalSubmittedItems.find? (fun o => o.product.id = pid) with
            | some s => s.quantity
            | none => 0
          mapSetNat m pid (submittedQty - oi.quantity)
      else m)
    []

/-- The inner loop of `updateKOT`'s diff for one product: walk the active
server rows in array order, assign `min(row quantity, remaining)` to each,
record an edit when the assignment differs from the row's quantity
(`canceled` when it drops to zero), and decrement `remaining`. -/
def distributeLoop : List BillItem → ℕ → List EditedItem
  | [], _ => []
  | sItem :: rest, remaining =>
    let origQty := sItem.quantity
    let assign := min origQty remaining
    let tail := distributeLoop rest (remaining - assign)
    if assign = origQty then tail
    else
      { itemId := sItem.id, newQuantity := assign,
        changeType := if assign = 0 then "canceled" else "edit" } :: tail

/-- `updateKOT`'s `editedItems`: for each server product group (insertion
order), skip when the client expresses no desired quantity, otherwise
distribute the desired quantity across the group's non-canceled rows. -/
def computeEditedItems (orderItems originalSubmittedItems : List OrderItem)
    (billItems : List BillItem) : List EditedItem :=
  (groupItemsByProduct billItems).foldl
    (fun acc g =>
      let activeServerItems := g.2.filter (fun s => ¬ s.status = "canceled")
      match mapGetNat g.1 (desiredByProductOf orderItems originalSubmittedItems) with
      | none => acc
      | some desired => acc ++ distributeLoop activeServerItems desired)
    []

/-- `updateKOT`'s `addedItems`: the `addon` lines with positive quantity. -/
def addedItemsOf (orderItems : List OrderItem) : List AddedItem :=
  (orderItems.filter (fun i => i.itemStatus = some ItemStatus.addon ∧ 0 < i.quantity)).map
    (fun i => { productId := i.product.id, name := i.product.name,
                quantity := i.quantity, price := jsPrice i.product })

/-- `const isCompleteOrder = !addedItems.length && !editedItems.length`. -/
def isCompleteOrder (orderItems originalSubmittedItems : List OrderItem)
    (billItems : List BillItem) : Bool :=
  (addedItemsOf orderItems).isEmpty &&
    (computeEditedItems orderItems originalSubmittedItems billItems).isEmpty

/-- The `status` field of the `updateData` payload sent by `updateKOT`:
`isCompleteOrder ? 'bill-printed' : currentBill.status`. -/
def updateStatusOf (orderItems originalSubmittedItems : List OrderItem)
    (bill : Bill) : String :=
  if isCompleteOrder orderItems originalSubmittedItems bill.items then "bill-printed"
  else bill.status

/-- The outcome of `updateKOT`'s server interaction, as seen by the local
state logic: an error (network failure, a thrown non-2xx, or a
`getTableStatus` refetch that is not a success) carrying the alert
message, or a `PUT /api/bill/update` response with its HTTP status. -/
inductive UpdateKOTResult where
  | failure (message : String)
  | putResponse (bill : Bill) (httpStatus : ℕ)
deriving Repr, DecidableEq

/-- The local-state effect of `updateKOT` (`src/unnamed/part_004`, lines
959-1197), up to the trailing `fetchLastOrder` refetch (which is the
separate sync step `fetchLastOrder`).  No local draft or bill state is
mutated before a 200/201 response: the guard and every error path only
raise an alert.  After a 2xx response, `addon` lines are reclassified as
`original`, local `removed` entries are dropped, pending changes are
cleared and removed items are suppressed on the next fetch. -/
def updateKOTLocal (st : OrderScreenState) (result : UpdateKOTResult) :
    OrderScreenState :=
  if st.existingBillId.isNone then
    { st with alerts := st.alerts ++ ["No existing order found. Please submit a new order first."] }
  else
    match result with
    | UpdateKOTResult.failure _ =>
      { st with alerts := st.alerts ++ ["Failed to update KOT"] }
    | UpdateKOTResult.putResponse _ httpStatus =>
      if httpStatus = 200 ∨ httpStatus = 201 then
        let updatedItems :=
          (st.orderItems.map (fun i =>
            if i.itemStatus = some ItemStatus.addon then
              { i with itemStatus := some ItemStatus.original }
            else i)).filter (fun i => ¬ i.itemStatus = some ItemStatus.removed)
        { st with
          orderItems := updatedItems,
          originalSubmittedItems := updatedItems.filter (fun i =>
            i.itemStatus = some ItemStatus.original ∨ i.itemStatus = none),
          hasPendingChanges := false,
          suppressRemovedAfterFetch := true,
          alerts := st.alerts ++ ["Success"] }
      else st

/-! ### Lemmas about the JS `Map` grouping of server items by product id -/

theorem lookupGroup_insertGroup (acc : List (String × List BillItem))
    (pid k : String) (bi : BillItem) :
    lookupGroup k (insertGroup acc pid bi) =
      if k = pid then some (((lookupGroup k acc).getD []) ++ [bi])
      else lookupGroup k acc := by
  induction acc with
  | nil =>
    by_cases h : k = pid
    · subst h; simp [insertGroup, lookupGroup]
    · simp only [insertGroup, lookupGroup, if_neg h]
      rw [if_neg (fun hh => h hh.symm)]
  | cons hd tl ih =>
    obtain ⟨k', g⟩ := hd
    by_cases h1 : k' = pid
    · subst h1
      by_cases h2 : k' = k
      · subst h2
        simp [insertGroup, lookupGroup]
      · have hk : ¬ k = k' := fun hh => h2 hh.symm
        simp [insertGroup, lookupGroup, h2, hk]
    · by_cases h2 : k' = k
      · subst h2
        have hk : ¬ k' = pid := h1
        simp [insertGroup, lookupGroup, hk, fun hh : k' = pid => hk hh]
      · simp [insertGroup, lookupGroup, h1, h2, ih]

theorem lookupGroup_groupFold (items : List BillItem) :
    ∀ (acc : List (String × List BillItem)) (k : String),
      (lookupGroup k (items.foldl groupStep acc)).getD [] =
        (lookupGroup k acc).getD [] ++
          items.filter (fun bi => pidOf bi = some k) := by
  induction items with
  | nil => intro acc k; simp
  | cons bi rest ih =>
    intro acc k
    rw [List.foldl_cons, ih]
    unfold groupStep
    cases h : pidOf bi with
    | none =>
      have : (decide (pidOf bi = some k)) = false := by simp [h]
      simp [List.filter_cons, this]
    | some pid =>
      rw [lookupGroup_insertGroup]
      by_cases hk : k = pid
      · subst hk
        have : (decide (pidOf bi = some k)) = true := by simp [h]
        simp [List.filter_cons, this]
      · have : (decide (pidOf bi = some k)) = false := by
          simp [h]; exact fun hh => hk hh.symm
        simp [List.filter_cons, this, if_neg hk]

theorem lookupGroup_isSome_groupFold (items : List BillItem) :
    ∀ (acc : List (String × List BillItem)) (k : String),
      (lookupGroup k (items.foldl groupStep acc)).isSome =
        ((lookupGroup k acc).isSome ||
          ¬ items.filter (fun bi => pidOf bi = some k) = []) := by
  induction items with
  | nil => intro acc k; simp
  | cons bi rest ih =>
    intro acc k
    rw [List.foldl_cons, ih]
    unfold groupStep
    cases h : pidOf bi with
    | none =>
      have : (decide (pidOf bi = some k)) = false := by simp [h]
      simp [List.filter_cons, this]
    | some pid =>
      rw [lookupGroup_insertGroup]
      by_cases hk : k = pid
      · subst hk
        have : (decide (pidOf bi = some k)) = true := by simp [h]
        simp [List.filter_cons, this]
      · have : (decide (pidOf bi = some k)) = false := by
          simp [h]; exact fun hh => hk hh.symm
        simp [List.filter_cons, this, if_neg hk]

theorem insertGroup_keys (acc : List (String × List BillItem)) (pid : String)
    (bi : BillItem) :
    (insertGroup acc pid bi).map Prod.fst =
      if pid ∈ acc.map Prod.fst then acc.map Prod.fst
      else acc.map Prod.fst ++ [pid] := by
  induction acc with
  | nil => simp [insertGroup]
  | cons hd tl ih =>
    obtain ⟨k', g⟩ := hd
    by_cases h1 : k' = pid
    · subst h1; simp [insertGroup]
    · have hpk : ¬ pid = k' := fun hh => h1 hh.symm
      by_cases h2 : pid ∈ tl.map Prod.fst
      · simp [insertGroup, h1, ih, hpk, h2]
      · simp [insertGroup, h1, ih, hpk, h2]

theorem nodup_keys_groupFold (items : List BillItem) :
    ∀ (acc : List (String × List BillItem)),
      (acc.map Prod.fst).Nodup →
      ((items.foldl groupStep acc).map Prod.fst).Nodup := by
  induction items with
  | nil => intro acc h; simpa using h
  | cons bi rest ih =>
    intro acc h
    rw [List.foldl_cons]
    apply ih
    unfold groupStep
    cases hp : pidOf bi with
    | none => exact h
    | some pid =>
      rw [insertGroup_keys]
      by_cases hmem : pid ∈ acc.map Prod.fst
      · simpa [hmem] using h
      · simp only [if_neg hmem]
        simp [List.nodup_append, h, hmem]

theorem lookupGroup_eq_some_of_mem
    {l : List (String × List BillItem)} {k : String} {g : List BillItem}
    (hnd : (l.map Prod.fst).Nodup) (hmem : (k, g) ∈ l) :
    lookupGroup k l = some g := by
  induction l with
  | nil => cases hmem
  | cons hd tl ih =>
    obtain ⟨k', g'⟩ := hd
    have hnd2 : (k' :: tl.map Prod.fst).Nodup := by simpa using hnd
    rcases List.mem_cons.mp hmem with heq | htl
    · cases heq
      simp [lookupGroup]
    · by_cases hk : k' = k
      · subst hk
        exact absurd (List.mem_map_of_mem Prod.fst htl)
          (List.nodup_cons.mp hnd2).1
      · simp only [lookupGroup, if_neg hk]
        exact ih (by simpa using (List.nodup_cons.mp hnd2).2) htl

theorem mem_of_lookupGroup_eq_some
    {l : List (String × List BillItem)} {k : String} {g : List BillItem}
    (h : lookupGroup k l = some g) : (k, g) ∈ l := by
  induction l with
  | nil => cases h
  | cons hd tl ih =>
    obtain ⟨k', g'⟩ := hd
    by_cases hk : k' = k
    · subst hk
      simp [lookupGroup] at h
      subst h
      exact List.mem_cons_self ..
    · simp only [lookupGroup, if_neg hk] at h
      exact List.mem_cons_of_mem _ (ih h)

theorem foldl_append_eq_flatten {α β : Type} (f : α → List β) :
    ∀ (l : List α) (acc : List β),
      l.foldl (fun a g => a ++ f g) acc = acc ++ (l.map f).flatten := by
  intro l
  induction l with
  | nil => intro acc; simp
  | cons hd tl ih => intro acc; simp [ih, List.append_assoc]

theorem mapServerItems_eq_flatten (items : List BillItem) :
    mapServerItems items =
      ((groupItemsByProduct items).map (fun g => buildLines g.1 g.2)).flatten := by
  unfold mapServerItems
  simpa using foldl_append_eq_flatten (fun g => buildLines g.1 g.2)
    (groupItemsByProduct items) []

theorem buildLines_productId {pid : String} {group : List BillItem}
    {l : OrderItem} (h : l ∈ buildLines pid group) : l.product.id = pid := by
  unfold buildLines at h
  rcases List.mem_append.mp h with h1 | h1
  · revert h1
    cases group.filter (fun g => ¬ g.status = "canceled" ∧ 0 < g.quantity) with
    | nil => intro h1; cases h1
    | cons proto rest =>
      intro h1
      simp only [List.mem_singleton] at h1
      subst h1; rfl
  · revert h1
    cases group.filter (fun g => g.status = "canceled") with
    | nil => intro h1; cases h1
    | cons proto rest =>
      intro h1
      simp only [List.mem_singleton] at h1
      subst h1; rfl

theorem flatten_map_eq_single {α : Type} (f : String × List BillItem → List α)
    (p : String) (gp : List BillItem) :
    ∀ (gs : List (String × List BillItem)),
      (gs.map Prod.fst).Nodup → (p, gp) ∈ gs →
      (∀ g ∈ gs, ¬ g.1 = p → f g = []) →
      (gs.map f).flatten = f (p, gp) := by
  intro gs
  induction gs with
  | nil => intro _ hmem; cases hmem
  | cons hd tl ih =>
    intro hnd hmem hnil
    obtain ⟨k', g'⟩ := hd
    have hnd2 : (k' :: tl.map Prod.fst).Nodup := by simpa using hnd
    rcases List.mem_cons.mp hmem with heq | htl
    · cases heq
      have : ∀ l ∈ tl.map f, l = [] := by
        intro l hl
        rcases List.mem_map.mp hl with ⟨g, hg, rfl⟩
        apply hnil g (List.mem_cons_of_mem _ hg)
        intro hgp
        exact (List.nodup_cons.mp hnd2).1
          (hgp ▸ List.mem_map_of_mem Prod.fst hg)
      simp [List.flatten_eq_nil_iff.mpr this]
    · have hk : ¬ k' = p := by
        intro hkp
        exact (List.nodup_cons.mp hnd2).1
          (hkp ▸ by simpa using List.mem_map_of_mem Prod.fst htl)
      have hhd : f (k', g') = [] := hnil (k', g') (List.mem_cons_self ..) hk
      simp only [List.map_cons, List.flatten_cons, hhd, List.nil_append]
      exact ih (by simpa using (List.nodup_cons.mp hnd2).2) htl
        (fun g hg => hnil g (List.mem_cons_of_mem _ hg))

theorem groupItemsByProduct_mem_eq {items : List BillItem} {k : String}
    {g : List BillItem} (hmem : (k, g) ∈ groupItemsByProduct items) :
    g = items.filter (fun bi => pidOf bi = some k) := by
  have hnd : ((groupItemsByProduct items).map Prod.fst).Nodup :=
    nodup_keys_groupFold items [] (by simp)
  have hlk : lookupGroup k (groupItemsByProduct items) = some g :=
    lookupGroup_eq_some_of_mem hnd hmem
  have := lookupGroup_groupFold items [] k
  unfold groupItemsByProduct at hlk
  rw [hlk] at this
  simpa [lookupGroup] using this

theorem groupItemsByProduct_mem_of_filter_ne_nil {items : List BillItem}
    {k : String} (h : ¬ items.filter (fun bi => pidOf bi = some k) = []) :
    (k, items.filter (fun bi => pidOf bi = some k)) ∈ groupItemsByProduct items := by
  have hsome := lookupGroup_isSome_groupFold items [] k
  simp only [lookupGroup, Option.isSome_none, Bool.false_or] at hsome
  have hs : (lookupGroup k (items.foldl groupStep [])).isSome = true := by
    rw [hsome]; exact decide_eq_true h
  obtain ⟨g, hg⟩ := Option.isSome_iff_exists.mp hs
  have hg' : lookupGroup k (groupItemsByProduct items) = some g := hg
  have hmem := mem_of_lookupGroup_eq_some hg'
  have heq := groupItemsByProduct_mem_eq hmem
  exact heq ▸ hmem

/-- Filtering the synced draft with a predicate that only holds for lines
of product `p` is the same as building and filtering the lines of `p`'s
group alone (`buildLines p [] = []` covers the absent-group case). -/
theorem filter_mapServerItems (items : List BillItem) (p : String)
    (P : OrderItem → Bool) (hP : ∀ l, P l = true → l.product.id = p) :
    (mapServerItems items).filter P =
      (buildLines p (items.filter (fun bi => pidOf bi = some p))).filter P := by
  rw [mapServerItems_eq_flatten, List.filter_flatten, List.map_map]
  have hnd : ((groupItemsByProduct items).map Prod.fst).Nodup :=
    nodup_keys_groupFold items [] (by simp)
  have hother : ∀ g ∈ groupItemsByProduct items, ¬ g.1 = p →
      ((List.filter P) ∘ fun g => buildLines g.1 g.2) g = [] := by
    intro ⟨k, g⟩ _ hk
    simp only [Function.comp_apply]
    rw [List.filter_eq_nil_iff]
    intro a ha hPa
    exact hk ((buildLines_productId ha) ▸ hP a hPa)
  by_cases hne : items.filter (fun bi => pidOf bi = some p) = []
  · -- no group for p: every group filters to nothing
    have hall : ∀ l ∈ (groupItemsByProduct items).map
        ((List.filter P) ∘ fun g => buildLines g.1 g.2), l = [] := by
      intro l hl
      rcases List.mem_map.mp hl with ⟨⟨k, g⟩, hg, rfl⟩
      by_cases hkp : k = p
      · subst hkp
        have hgf := groupItemsByProduct_mem_eq hg
        rw [hne] at hgf
        subst hgf
        simp [buildLines]
      · exact hother (k, g) hg hkp
    rw [List.flatten_eq_nil_iff.mpr hall, hne]
    simp [buildLines]
  · have hmem := groupItemsByProduct_mem_of_filter_ne_nil hne
    have := flatten_map_eq_single
      ((List.filter P) ∘ fun g => buildLines g.1 g.2) p
      (items.filter (fun bi => pidOf bi = some p))
      (groupItemsByProduct items) hnd hmem hother
    simpa using this

/-- The active server rows for product `p` inside a bill's item list:
rows whose resolved product id is `p`, whose status is not `canceled` and
whose quantity is positive. -/
def activeRowsOf (items : List BillItem) (p : String) : List BillItem :=
  (items.filter (fun bi => pidOf bi = some p)).filter
    (fun g => ¬ g.status = "canceled" ∧ 0 < g.quantity)

theorem buildLines_filter_original_eval (pid : String) (group : List BillItem) :
    (buildLines pid group).filter
        (fun l => l.product.id = pid ∧ l.itemStatus = some ItemStatus.original) =
      (match group.filter (fun g => ¬ g.status = "canceled" ∧ 0 < g.quantity) with
       | [] => []
       | proto :: _ =>
         [{ product := { id := pid, name := resolvedName proto,
                         price := some (resolvedPrice proto) },
            quantity := ((group.filter (fun g => ¬ g.status = "canceled" ∧
                0 < g.quantity)).map (fun it => it.quantity)).sum,
            itemStatus := some ItemStatus.original,
            originalQuantity := some (((group.filter (fun g => ¬ g.status = "canceled" ∧
                0 < g.quantity)).map (fun it => it.quantity)).sum),
            localId := some ("srv-" ++ pid),
            serverItemIds := some (((group.filter (fun g => ¬ g.status = "canceled" ∧
                0 < g.quantity)).map (fun a => a.id)).filter (fun s => ¬ s = "")) }]) := by
  simp only [buildLines]
  cases hA : group.filter (fun g => ¬ g.status = "canceled" ∧ 0 < g.quantity) with
  | nil =>
    cases hC : group.filter (fun g => g.status = "canceled") with
    | nil => simp
    | cons protoC restC => simp
  | cons proto rest =>
    cases hC : group.filter (fun g => g.status = "canceled") with
    | nil => simp
    | cons protoC restC => simp

theorem buildLines_filter_removed_eval (pid : String) (group : List BillItem) :
    (buildLines pid group).filter
        (fun l => l.product.id = pid ∧ l.itemStatus = some ItemStatus.removed) =
      (match group.filter (fun g => g.status = "canceled") with
       | [] => []
       | proto :: _ =>
         [{ product := { id := pid, name := resolvedName proto,
                         price := some (resolvedPrice proto) },
            quantity := 0,
            itemStatus := some ItemStatus.removed,
            originalQuantity := some (((group.filter (fun g => g.status = "canceled")).map
                (fun it => it.quantity)).sum),
            localId := some ("srv-removed-" ++ pid),
            serverItemIds := some (((group.filter (fun g => g.status = "canceled")).map
                (fun c => c.id)).filter (fun s => ¬ s = "")) }]) := by
  simp only [buildLines]
  cases hA : group.filter (fun g => ¬ g.status = "canceled" ∧ 0 < g.quantity) with
  | nil =>
    cases hC : group.filter (fun g => g.status = "canceled") with
    | nil => simp
    | cons protoC restC => simp
  | cons proto rest =>
    cases hC : group.filter (fun g => g.status = "canceled") with
    | nil => simp
    | cons protoC restC => simp

/-- Claim C3: for every server bill and product with at least one active
row (status not `canceled`, positive quantity), sync produces exactly one
`original` line for that product, whose quantity is the sum of the active
rows' quantities and whose `serverItemIds` records every contributing
row's id; the canceled rows are collapsed into at most one `removed`
line. -/
theorem c3_sync_aggregates_active_rows (items : List BillItem) (p : String)
    (hact : ¬ activeRowsOf items p = []) :
    ((mapServerItems items).filter (fun l => l.product.id = p ∧
        l.itemStatus = some ItemStatus.original)).length = 1
    ∧ (∀ l ∈ mapServerItems items, l.product.id = p →
        l.itemStatus = some ItemStatus.original →
          l.quantity = ((activeRowsOf items p).map (fun it => it.quantity)).sum
          ∧ l.serverItemIds =
              some (((activeRowsOf items p).map (fun a => a.id)).filter
                (fun s => ¬ s = "")))
    ∧ (∀ bi ∈ activeRowsOf items p, ¬ bi.id = "" →
        bi.id ∈ ((activeRowsOf items p).map (fun a => a.id)).filter
          (fun s => ¬ s = ""))
    ∧ ((mapServerItems items).filter (fun l => l.product.id = p ∧
        l.itemStatus = some ItemStatus.removed)).length ≤ 1 := by
  have horig := filter_mapServerItems items p
    (fun l => decide (l.product.id = p ∧ l.itemStatus = some ItemStatus.original))
    (fun l h => (of_decide_eq_true h).1)
  have hrem := filter_mapServerItems items p
    (fun l => decide (l.product.id = p ∧ l.itemStatus = some ItemStatus.removed))
    (fun l h => (of_decide_eq_true h).1)
  rw [buildLines_filter_original_eval] at horig
  rw [buildLines_filter_removed_eval] at hrem
  unfold activeRowsOf at hact
  refine ⟨?_, ?_, ?_, ?_⟩
  · rw [horig]
    cases hA : (items.filter (fun bi => pidOf bi = some p)).filter
        (fun g => ¬ g.status = "canceled" ∧ 0 < g.quantity) with
    | nil => exact absurd hA hact
    | cons proto rest => simp [hA]
  · intro l hl hid hstat
    have hmem : l ∈ (mapServerItems items).filter
        (fun l => decide (l.product.id = p ∧ l.itemStatus = some ItemStatus.original)) :=
      List.mem_filter.mpr ⟨hl, by simp [hid, hstat]⟩
    rw [horig] at hmem
    revert hmem
    cases hA : (items.filter (fun bi => pidOf bi = some p)).filter
        (fun g => ¬ g.status = "canceled" ∧ 0 < g.quantity) with
    | nil => exact absurd hA hact
    | cons proto rest =>
      intro hmem
      simp only [List.mem_singleton] at hmem
      subst hmem
      unfold activeRowsOf
      rw [hA]
      exact ⟨rfl, rfl⟩
  · intro bi hbi hne
    unfold activeRowsOf at hbi
    exact List.mem_filter.mpr ⟨List.mem_map_of_mem _ hbi, by simpa using hne⟩
  · rw [hrem]
    cases hC : (items.filter (fun bi => pidOf bi = some p)).filter
        (fun g => g.status = "canceled") with
    | nil => simp
    | cons proto rest => simp

/-- The order screen's initial state (all cells empty). -/
def initialOrderScreenState : OrderScreenState :=
  { orderItems := [], originalSubmittedItems := [], existingBillId := none,
    billNumber := none, hasPendingChanges := false,
    suppressRemovedAfterFetch := false, alerts := [] }

/-- The initial state of the earlier iteration's screen. -/
def initialTabsState : Tabs.State :=
  { existingBillId := none, billNumber := none, orderItems := [] }

/-- A `getTableStatus` response with `status: "success"` whose bill is
already `completed` (one active item row for product `p1`). -/
def completedBillResponse : TableStatusResponse :=
  { status := "success",
    data := some
      { id := some "b1", billNumber := some "B-1", status := "completed",
        items := [{ id := "s1",
                    productId := some { id := "p1", name := some "Tea", price := some 10 },
                    name := none, price := some 10, quantity := 2,
                    status := "active" }] } }

/-- Claim C1 (code bug in the final iteration): on a success response whose
bill status is `completed`, the final order screen's sync keeps the bill id
and rebuilds the draft from the bill — the table is treated as occupied —
while the earlier `order.tsx` iteration clears both, as the claim
requires. -/
theorem c1_success_completed_bill_divergence :
    (fetchLastOrder initialOrderScreenState completedBillResponse).existingBillId = some "b1"
    ∧ ((fetchLastOrder initialOrderScreenState completedBillResponse).orderItems.map
        (fun l => (l.product.id, l.quantity, l.itemStatus))) =
        [("p1", 2, some ItemStatus.original)]
    ∧ (Tabs.fetchLastOrder [] initialTabsState completedBillResponse).existingBillId = none
    ∧ (Tabs.fetchLastOrder [] initialTabsState completedBillResponse).orderItems = [] := by
  refine ⟨?_, ?_, ?_, ?_⟩ <;> decide

theorem foldl_cost_init (l : List OrderItem) :
    ∀ (a : ℚ), l.foldl (fun total i => total + jsPrice i.product * i.quantity) a =
      a + l.foldl (fun total i => total + jsPrice i.product * i.quantity) 0 := by
  induction l with
  | nil => intro a; simp
  | cons hd tl ih =>
    intro a
    rw [List.foldl_cons, List.foldl_cons, ih, ih (0 + jsPrice hd.product * hd.quantity)]
    ring

/-- Claim C7: the tax calculator computes percent taxes and floors the
total (`Math.floor`, not rounding): subtotal 199.99 with sgst 2.5% and
cgst 2.5% yields 209, zero taxes yield `⌊subtotal⌋`, and a missing unit
price is treated as 0 (it contributes nothing to the subtotal). -/
theorem c7_tax_payable_floor (ts : TaxSettings) (subtotal : ℚ) :
    (computeTaxAmounts ts subtotal).sgstAmount = subtotal * ts.sgst / 100
    ∧ (computeTaxAmounts ts subtotal).cgstAmount = subtotal * ts.cgst / 100
    ∧ (computeTaxAmounts ts subtotal).payableAmount =
        ⌊subtotal + subtotal * ts.sgst / 100 + subtotal * ts.cgst / 100⌋
    ∧ (ts.sgst = 0 → ts.cgst = 0 →
        (computeTaxAmounts ts subtotal).payableAmount = ⌊subtotal⌋)
    ∧ (computeTaxAmounts { cgst := 5/2, sgst := 5/2 } (19999/100)).payableAmount = 209
    ∧ (∀ pr : Product, pr.price = none → jsPrice pr = 0)
    ∧ (∀ (i : OrderItem) (rest : List OrderItem), i.product.price = none →
        getTotalOrderCost (i :: rest) = getTotalOrderCost rest) := by
  refine ⟨rfl, rfl, rfl, ?_, ?_, ?_, ?_⟩
  · intro h1 h2
    simp [computeTaxAmounts, h1, h2]
  · norm_num [computeTaxAmounts]
  · intro pr h
    simp [jsPrice, h]
  · intro i rest h
    have hp : jsPrice i.product = 0 := by simp [jsPrice, h]
    unfold getTotalOrderCost
    rw [List.filter_cons]
    by_cases hrem : i.itemStatus = some ItemStatus.removed
    · rw [if_neg (by simp [hrem])]
    · rw [if_pos (by simp [hrem])]
      rw [List.foldl_cons, foldl_cost_init]
      simp [hp]

/-- Witness for C7 at concrete inputs: zero taxes floor the subtotal, the
199.99 example yields 209, and a priced-out line contributes nothing. -/
theorem c7_tax_payable_floor_witness :
    (computeTaxAmounts { cgst := 0, sgst := 0 } (399/2)).payableAmount = ⌊(399/2 : ℚ)⌋
    ∧ (computeTaxAmounts { cgst := 5/2, sgst := 5/2 } (19999/100)).payableAmount = 209
    ∧ getTotalOrderCost
        [{ product := { id := "p1", name := "Tea", price := none }, quantity := 3,
           itemStatus := none, originalQuantity := none, localId := none,
           serverItemIds := none }] = getTotalOrderCost [] :=
  ⟨(c7_tax_payable_floor { cgst := 0, sgst := 0 } (399/2)).2.2.2.1 rfl rfl,
   (c7_tax_payable_floor { cgst := 0, sgst := 0 } 0).2.2.2.2.1,
   (c7_tax_payable_floor { cgst := 0, sgst := 0 } 0).2.2.2.2.2.2
     { product := { id := "p1", name := "Tea", price := none }, quantity := 3,
       itemStatus := none, originalQuantity := none, localId := none,
       serverItemIds := none } [] rfl⟩

/-- Claim C9: when the Update KOT server interaction fails (network error,
thrown non-2xx, or a failed bill refetch), the local draft and bill state
are untouched — only an alert is raised — and a non-2xx response that does
not throw mutates nothing at all. -/
theorem c9_update_kot_failure_preserves_state (st : OrderScreenState)
    (msg : String) (hbill : st.existingBillId.isSome = true) :
    (updateKOTLocal st (UpdateKOTResult.failure msg)).orderItems = st.orderItems
    ∧ (updateKOTLocal st (UpdateKOTResult.failure msg)).originalSubmittedItems =
        st.originalSubmittedItems
    ∧ (updateKOTLocal st (UpdateKOTResult.failure msg)).hasPendingChanges =
        st.hasPendingChanges
    ∧ (updateKOTLocal st (UpdateKOTResult.failure msg)).existingBillId =
        st.existingBillId
    ∧ (updateKOTLocal st (UpdateKOTResult.failure msg)).billNumber = st.billNumber
    ∧ (updateKOTLocal st (UpdateKOTResult.failure msg)).alerts =
        st.alerts ++ ["Failed to update KOT"]
    ∧ (∀ (bill : Bill) (s : ℕ), ¬ s = 200 → ¬ s = 201 →
        updateKOTLocal st (UpdateKOTResult.putResponse bill s) = st) := by
  rcases hb : st.existingBillId with _ | b
  · rw [hb] at hbill; cases hbill
  · refine ⟨?_, ?_, ?_, ?_, ?_, ?_, ?_⟩ <;>
      simp [updateKOTLocal, hb]
    intro bill s hs1 hs2
    simp [hs1, hs2]

/-- A concrete order-screen state with an existing bill, used to witness
C9. -/
def stateWithBill : OrderScreenState :=
  { orderItems := [{ product := { id := "p1", name := "Tea", price := some 10 },
                     quantity := 2, itemStatus := some ItemStatus.original,
                     originalQuantity := some 2, localId := some "srv-p1",
                     serverItemIds := some ["s1"] }],
    originalSubmittedItems := [], existingBillId := some "b1",
    billNumber := some "B-1", hasPendingChanges := true,
    suppressRemovedAfterFetch := false, alerts := [] }

/-- Witness for C9: a concrete state with an existing bill is untouched by
a failing update. -/
theorem c9_update_kot_failure_preserves_state_witness :
    stateWithBill.existingBillId.isSome = true
    ∧ (updateKOTLocal stateWithBill
        (UpdateKOTResult.failure "Network Error")).orderItems =
      stateWithBill.orderItems :=
  ⟨rfl, (c9_update_kot_failure_preserves_state stateWithBill "Network Error" rfl).1⟩

/-- A concrete server item list: product `p1` split over two active rows
(an original submission and an addon submission) plus one canceled row,
next to an unrelated product `p2`. -/
def splitRowsItems : List BillItem :=
  [{ id := "s1", productId := some { id := "p1", name := some "Tea", price := some 10 },
     name := none, price := some 10, quantity := 2, status := "active" },
   { id := "s2", productId := some { id := "p1", name := some "Tea", price := some 10 },
     name := none, price := some 10, quantity := 3, status := "active" },
   { id := "s3", productId := some { id := "p1", name := some "Tea", price := some 10 },
     name := none, price := some 10, quantity := 1, status := "canceled" },
   { id := "s4", productId := some { id := "p2", name := some "Samosa", price := some 15 },
     name := none, price := some 15, quantity := 1, status := "active" }]

/-- Witness for C3: syncing the split-row bill produces exactly one
`original` line for `p1`. -/
theorem c3_sync_aggregates_active_rows_witness :
    ¬ activeRowsOf splitRowsItems "p1" = []
    ∧ ((mapServerItems splitRowsItems).filter (fun l => l.product.id = "p1" ∧
        l.itemStatus = some ItemStatus.original)).length = 1 :=
  ⟨by decide, (c3_sync_aggregates_active_rows splitRowsItems "p1" (by decide)).1⟩

/-- The greedy assignment described by the specification of the Update KOT
diff: walk the row quantities in array order, assign
`min(row quantity, remaining desired)` to each row and decrement the
remaining desired quantity. -/
def assignGreedy : List ℕ → ℕ → List ℕ
  | [], _ => []
  | q :: qs, remaining => min q remaining :: assignGreedy qs (remaining - min q remaining)

/-- The edit set described by the specification: pair each active row with
its greedy assignment and record an edit exactly when the assignment
differs from the row's current quantity — `canceled` when the new
quantity is zero, `edit` otherwise. -/
def editsSpec (rows : List BillItem) (desired : ℕ) : List EditedItem :=
  (rows.zip (assignGreedy (rows.map (fun r => r.quantity)) desired)).filterMap
    (fun rq =>
      if rq.2 = rq.1.quantity then none
      else some { itemId := rq.1.id, newQuantity := rq.2,
                  changeType := if rq.2 = 0 then "canceled" else "edit" })

theorem distributeLoop_eq_editsSpec :
    ∀ (rows : List BillItem) (d : ℕ), distributeLoop rows d = editsSpec rows d := by
  intro rows
  induction rows with
  | nil => intro d; rfl
  | cons r rest ih =>
    intro d
    simp only [distributeLoop, editsSpec, List.map_cons, assignGreedy,
      List.zip_cons_cons, List.filterMap_cons]
    by_cases h : min r.quantity d = r.quantity
    · rw [if_pos h, if_pos h, ih]
      rfl
    · rw [if_neg h, if_neg h, ih]
      rfl

/-- Claim C4: the Update KOT diff distributes each product's desired
quantity greedily across that product's non-canceled server rows in array
order and records an edit exactly for the rows whose assignment changed,
`canceled` at zero and `edit` otherwise — i.e. the imperative loop equals
the specification's greedy description, product group by product group. -/
theorem c4_update_kot_greedy_distribution (orderItems originalSubmittedItems :
    List OrderItem) (billItems : List BillItem) :
    computeEditedItems orderItems originalSubmittedItems billItems =
      (groupItemsByProduct billItems).foldl
        (fun acc g =>
          match mapGetNat g.1 (desiredByProductOf orderItems originalSubmittedItems) with
          | none => acc
          | some desired =>
            acc ++ editsSpec (g.2.filter (fun s => ¬ s.status = "canceled")) desired)
        [] := by
  unfold computeEditedItems
  have : ∀ (gs : List (String × List BillItem)) (acc : List EditedItem),
      gs.foldl
        (fun acc g =>
          match mapGetNat g.1 (desiredByProductOf orderItems originalSubmittedItems) with
          | none => acc
          | some desired =>
            acc ++ distributeLoop (g.2.filter (fun s => ¬ s.status = "canceled")) desired)
        acc =
      gs.foldl
        (fun acc g =>
          match mapGetNat g.1 (desiredByProductOf orderItems originalSubmittedItems) with
          | none => acc
          | some desired =>
            acc ++ editsSpec (g.2.filter (fun s => ¬ s.status = "canceled")) desired)
        acc := by
    intro gs
    induction gs with
    | nil => intro acc; rfl
    | cons g rest ih =>
      intro acc
      rw [List.foldl_cons, List.foldl_cons]
      cases mapGetNat g.1 (desiredByProductOf orderItems originalSubmittedItems) with
      | none => exact ih acc
      | some d =>
        have h2 :
            rest.foldl
              (fun acc g =>
                match mapGetNat g.1 (desiredByProductOf orderItems originalSubmittedItems) with
                | none => acc
                | some desired =>
                  acc ++ editsSpec (g.2.filter (fun s => ¬ s.status = "canceled")) desired)
              (acc ++ distributeLoop (g.2.filter (fun s => ¬ s.status = "canceled")) d) =
            rest.foldl
              (fun acc g =>
                match mapGetNat g.1 (desiredByProductOf orderItems originalSubmittedItems) with
                | none => acc
                | some desired =>
                  acc ++ editsSpec (g.2.filter (fun s => ¬ s.status = "canceled")) desired)
              (acc ++ editsSpec (g.2.filter (fun s => ¬ s.status = "canceled")) d) := by
          rw [distributeLoop_eq_editsSpec]
        exact (ih _).trans h2
  exact this (groupItemsByProduct billItems) []

theorem distributeLoop_sum_eq_nil :
    ∀ (rows : List BillItem),
      distributeLoop rows ((rows.map (fun r => r.quantity)).sum) = [] := by
  intro rows
  induction rows with
  | nil => rfl
  | cons r rest ih =>
    simp only [distributeLoop, List.map_cons, List.sum_cons]
    rw [if_pos (Nat.min_eq_left (Nat.le_add_right _ _)), Nat.min_eq_left
      (Nat.le_add_right _ _), Nat.add_sub_cancel_left]
    exact ih

theorem mapGetNat_mem {k : String} {v : ℕ} :
    ∀ {m : List (String × ℕ)}, mapGetNat k m = some v → (k, v) ∈ m := by
  intro m
  induction m with
  | nil => intro h; cases h
  | cons hd tl ih =>
    obtain ⟨k', v'⟩ := hd
    intro h
    by_cases hk : k' = k
    · subst hk
      simp [mapGetNat] at h
      subst h
      exact List.mem_cons_self ..
    · simp only [mapGetNat, if_neg hk] at h
      exact List.mem_cons_of_mem _ (ih h)

theorem foldl_eq_init_of_forall {α β : Type} {gs : List α} {step : β → α → β}
    (h : ∀ (acc : β) (g : α), g ∈ gs → step acc g = acc) :
    ∀ acc, gs.foldl step acc = acc := by
  induction gs with
  | nil => intro acc; rfl
  | cons g rest ih =>
    intro acc
    rw [List.foldl_cons, h acc g (List.mem_cons_self ..)]
    exact ih (fun acc g hg => h acc g (List.mem_cons_of_mem _ hg)) acc

/-- A draft holding one original line for `p1` at quantity 1. -/
def draftOneTea : List OrderItem :=
  [{ product := { id := "p1", name := "Tea", price := some 10 }, quantity := 1,
     itemStatus := some ItemStatus.original, originalQuantity := some 2,
     localId := some "srv-p1", serverItemIds := some ["s1"] }]

/-- A bill whose own status is already `bill-printed`, with one active row
of quantity 2 for `p1`. -/
def printedBill : Bill :=
  { id := some "b1", billNumber := some "B-1", status := "bill-printed",
    items := [{ id := "s1",
                productId := some { id := "p1", name := some "Tea", price := some 10 },
                name := none, price := some 10, quantity := 2, status := "active" }] }

/-- Counterexample to C5 as stated: on a bill whose existing status is
already `bill-printed`, the carried-over status equals `bill-printed` even
though the diff is not empty (the draft wants quantity 1 of a row holding
2, producing one edit), so "status is `bill-printed` iff the diff has zero
edits and zero adds" fails. -/
theorem c5_status_iff_counterexample :
    ¬ (updateStatusOf draftOneTea draftOneTea printedBill = "bill-printed" ↔
        (computeEditedItems draftOneTea draftOneTea printedBill.items = []
          ∧ addedItemsOf draftOneTea = [])) := by
  decide

/-- Claim C5, amended: `updateKOT` sends status `bill-printed` when the
diff has zero edits and zero adds, and otherwise carries the bill's
existing status over unchanged — so the claimed "iff" holds whenever the
existing status is not itself `bill-printed`.  Moreover, when every entry
of the desired-quantity map equals the summed quantity of that product's
non-canceled server rows and no `addon` line has positive quantity, the
diff produces zero edits and zero adds and the status becomes
`bill-printed`. -/
theorem c5_bill_printed_status_amended (orderItems originalSubmittedItems :
    List OrderItem) (bill : Bill) :
    (isCompleteOrder orderItems originalSubmittedItems bill.items = true →
        updateStatusOf orderItems originalSubmittedItems bill = "bill-printed")
    ∧ (isCompleteOrder orderItems originalSubmittedItems bill.items = false →
        updateStatusOf orderItems originalSubmittedItems bill = bill.status)
    ∧ (¬ bill.status = "bill-printed" →
        (updateStatusOf orderItems originalSubmittedItems bill = "bill-printed" ↔
          (computeEditedItems orderItems originalSubmittedItems bill.items = []
            ∧ addedItemsOf orderItems = [])))
    ∧ ((∀ pd ∈ desiredByProductOf orderItems originalSubmittedItems,
          pd.2 = (((bill.items.filter (fun bi => pidOf bi = some pd.1)).filter
              (fun s => ¬ s.status = "canceled")).map (fun it => it.quantity)).sum) →
        (∀ i ∈ orderItems, i.itemStatus = some ItemStatus.addon → i.quantity = 0) →
        (computeEditedItems orderItems originalSubmittedItems bill.items = []
          ∧ addedItemsOf orderItems = []
          ∧ updateStatusOf orderItems originalSubmittedItems bill = "bill-printed")) := by
  refine ⟨?_, ?_, ?_, ?_⟩
  · intro h; simp [updateStatusOf, h]
  · intro h; simp [updateStatusOf, h]
  · intro hstat
    unfold updateStatusOf
    by_cases hc : isCompleteOrder orderItems originalSubmittedItems bill.items = true
    · rw [if_pos hc]
      unfold isCompleteOrder at hc
      rw [Bool.and_eq_true, List.isEmpty_iff, List.isEmpty_iff] at hc
      exact ⟨fun _ => ⟨hc.2, hc.1⟩, fun _ => rfl⟩
    · rw [if_neg hc]
      constructor
      · intro h; exact absurd h hstat
      · intro ⟨he, ha⟩
        exact absurd (by unfold isCompleteOrder
                         rw [Bool.and_eq_true, List.isEmpty_iff, List.isEmpty_iff]
                         exact ⟨ha, he⟩) hc
  · intro hdes haddon
    have hadds : addedItemsOf orderItems = [] := by
      unfold addedItemsOf
      rw [List.filter_eq_nil_iff.mpr ?_, List.map_nil]
      intro i hi
      simp only [decide_eq_true_eq, not_and]
      intro hst
      rw [haddon i hi hst]
      simp
    have hedits : computeEditedItems orderItems originalSubmittedItems bill.items = [] := by
      unfold computeEditedItems
      apply foldl_eq_init_of_forall
      intro acc g hg
      obtain ⟨k, grp⟩ := g
      cases hd : mapGetNat k (desiredByProductOf orderItems originalSubmittedItems) with
      | none => rfl
      | some d =>
        have hmem := mapGetNat_mem hd
        have hsum := hdes (k, d) hmem
        have hgrp := groupItemsByProduct_mem_eq hg
        simp only at hsum hgrp
        rw [hgrp]
        simp only
        rw [hsum, distributeLoop_sum_eq_nil]
        exact List.append_nil acc
    refine ⟨hedits, hadds, ?_⟩
    unfold updateStatusOf isCompleteOrder
    rw [if_pos (by rw [Bool.and_eq_true, List.isEmpty_iff, List.isEmpty_iff]
                   exact ⟨hadds, hedits⟩)]

/-- A bill in `pending` status with one active row of quantity 2 for
`p1`, matching the submitted draft. -/
def pendingBill : Bill :=
  { id := some "b1", billNumber := some "B-1", status := "pending",
    items := [{ id := "s1",
                productId := some { id := "p1", name := some "Tea", price := some 10 },
                name := none, price := some 10, quantity := 2, status := "active" }] }

/-- A draft mirroring `pendingBill`: one original line for `p1` at the
synced quantity 2, no addons. -/
def draftTwoTea : List OrderItem :=
  [{ product := { id := "p1", name := "Tea", price := some 10 }, quantity := 2,
     itemStatus := some ItemStatus.original, originalQuantity := some 2,
     localId := some "srv-p1", serverItemIds := some ["s1"] }]

/-- Witness for C5 (amended): an unchanged draft over a pending bill
produces zero edits and zero adds, and the update sets `bill-printed`. -/
theorem c5_bill_printed_status_amended_witness :
    computeEditedItems draftTwoTea draftTwoTea pendingBill.items = []
    ∧ addedItemsOf draftTwoTea = []
    ∧ updateStatusOf draftTwoTea draftTwoTea pendingBill = "bill-printed" :=
  (c5_bill_printed_status_amended draftTwoTea draftTwoTea pendingBill).2.2.2
    (by decide) (by decide)

/-- Claim C6: on a submitted bill, adding a product whose first
non-removed match in the draft is an `original` line (and which has no
`addon` line yet) appends a fresh `addon` line at quantity 1 and leaves
every existing line — in particular the original — untouched; adding the
same product again increments that `addon` line to 2 instead of creating
another line or touching the original. -/
theorem c6_addon_isolation (billId : String) (items : List OrderItem)
    (P : Product) (l : OrderItem) (f₁ f₂ : String)
    (hfind : items.find? (fun i => i.product.id = P.id ∧
        ¬ i.itemStatus = some ItemStatus.removed) = some l)
    (horig : l.itemStatus = some ItemStatus.original)
    (hnoaddon : items.find? (fun i => i.product.id = P.id ∧
        i.itemStatus = some ItemStatus.addon) = none) :
    handleAddToOrder (some billId) items P f₁ =
      items ++ [{ product := P, quantity := 1, itemStatus := some ItemStatus.addon,
                  originalQuantity := none, localId := none, serverItemIds := none }]
    ∧ handleAddToOrder (some billId)
        (items ++ [{ product := P, quantity := 1, itemStatus := some ItemStatus.addon,
                     originalQuantity := none, localId := none, serverItemIds := none }])
        P f₂ =
      items ++ [{ product := P, quantity := 2, itemStatus := some ItemStatus.addon,
                  originalQuantity := none, localId := none, serverItemIds := none }] := by
  constructor
  · simp only [handleAddToOrder, hfind]
    rw [if_neg (by rw [horig]; simp)]
    rw [if_pos ⟨rfl, horig⟩]
    simp only [hnoaddon]
  · simp only [handleAddToOrder, List.find?_append, hfind, Option.or_some]
    rw [if_neg (by rw [horig]; simp)]
    rw [if_pos ⟨rfl, horig⟩]
    rw [hnoaddon, Option.none_or]
    have hA1 : List.find? (fun (i : OrderItem) => decide (i.product.id = P.id ∧
        i.itemStatus = some ItemStatus.addon))
        ([{ product := P, quantity := 1, itemStatus := some ItemStatus.addon,
            originalQuantity := none, localId := none, serverItemIds := none }] :
          List OrderItem) =
        some { product := P, quantity := 1, itemStatus := some ItemStatus.addon,
               originalQuantity := none, localId := none, serverItemIds := none } := by
      simp
    rw [hA1]
    simp only [List.map_append]
    have hmapid : items.map (fun (i : OrderItem) =>
        if i.product.id = P.id ∧ i.itemStatus = some ItemStatus.addon then
          { i with quantity := i.quantity + 1 }
        else i) = items := by
      conv_rhs => rw [← List.map_id items]
      apply List.map_congr_left
      intro a ha
      have hnp := List.find?_eq_none.mp hnoaddon a ha
      simp only [decide_eq_true_eq] at hnp
      simp [hnp]
    rw [hmapid]
    simp

/-- A concrete draft: a submitted original line of 2 Tea. -/
def submittedTeaDraft : List OrderItem :=
  [{ product := { id := "p1", name := "Tea", price := some 10 }, quantity := 2,
     itemStatus := some ItemStatus.original, originalQuantity := some 2,
     localId := some "srv-p1", serverItemIds := some ["s1"] }]

/-- Witness for C6: adding Tea to the submitted draft creates an addon at
quantity 1; adding it again increments the addon to 2. -/
theorem c6_addon_isolation_witness :
    handleAddToOrder (some "b1") submittedTeaDraft
        { id := "p1", name := "Tea", price := some 10 } "f1" =
      submittedTeaDraft ++
        [{ product := { id := "p1", name := "Tea", price := some 10 }, quantity := 1,
           itemStatus := some ItemStatus.addon, originalQuantity := none,
           localId := none, serverItemIds := none }]
    ∧ handleAddToOrder (some "b1")
        (submittedTeaDraft ++
          [{ product := { id := "p1", name := "Tea", price := some 10 }, quantity := 1,
             itemStatus := some ItemStatus.addon, originalQuantity := none,
             localId := none, serverItemIds := none }])
        { id := "p1", name := "Tea", price := some 10 } "f2" =
      submittedTeaDraft ++
        [{ product := { id := "p1", name := "Tea", price := some 10 }, quantity := 2,
           itemStatus := some ItemStatus.addon, originalQuantity := none,
           localId := none, serverItemIds := none }] :=
  c6_addon_isolation "b1" submittedTeaDraft
    { id := "p1", name := "Tea", price := some 10 }
    { product := { id := "p1", name := "Tea", price := some 10 }, quantity := 2,
      itemStatus := some ItemStatus.original, originalQuantity := some 2,
      localId := some "srv-p1", serverItemIds := some ["s1"] }
    "f1" "f2" (by decide) (by decide) (by decide)

/-- Claim C10: the existing-line lookup of `handleAddToOrder` excludes
removed lines, so its restore-removed-as-addon branch can never be taken:
whenever a product occurs in the draft only as removed lines, adding it
appends a brand-new line (addon when a bill exists, unclassified
otherwise) and every existing line survives unchanged. -/
theorem c10_add_to_order_ignores_removed (billId : Option String)
    (items : List OrderItem) (P : Product) (f : String)
    (h : ∀ l ∈ items, l.product.id = P.id → l.itemStatus = some ItemStatus.removed) :
    handleAddToOrder billId items P f =
      items ++ [{ product := P, quantity := 1,
                  itemStatus := if billId.isSome then some ItemStatus.addon else none,
                  originalQuantity := none, localId := some f,
                  serverItemIds := none }]
    ∧ (∀ (otherItems : List OrderItem) (l : OrderItem),
        otherItems.find? (fun i => i.product.id = P.id ∧
          ¬ i.itemStatus = some ItemStatus.removed) = some l →
        ¬ l.itemStatus = some ItemStatus.removed) := by
  constructor
  · have hnone : items.find? (fun i => i.product.id = P.id ∧
        ¬ i.itemStatus = some ItemStatus.removed) = none := by
      rw [List.find?_eq_none]
      intro x hx
      simp only [decide_eq_true_eq, not_and]
      intro hid
      simp [h x hx hid]
    simp only [handleAddToOrder, hnone]
  · intro otherItems l hf
    have := List.find?_some hf
    simp only [decide_eq_true_eq] at this
    exact this.2

/-- A draft in which Tea occurs only as a removed line. -/
def removedOnlyDraft : List OrderItem :=
  [{ product := { id := "p1", name := "Tea", price := some 10 }, quantity := 0,
     itemStatus := some ItemStatus.removed, originalQuantity := some 2,
     localId := some "srv-removed-p1", serverItemIds := some ["s1"] }]

/-- Witness for C10: adding Tea to a draft holding only a removed Tea line
appends a brand-new addon line and keeps the removed line intact. -/
theorem c10_add_to_order_ignores_removed_witness :
    handleAddToOrder (some "b1") removedOnlyDraft
        { id := "p1", name := "Tea", price := some 10 } "f9" =
      removedOnlyDraft ++
        [{ product := { id := "p1", name := "Tea", price := some 10 }, quantity := 1,
           itemStatus := if (some "b1").isSome then some ItemStatus.addon else none,
           originalQuantity := none, localId := some "f9", serverItemIds := none }] :=
  (c10_add_to_order_ignores_removed (some "b1") removedOnlyDraft
    { id := "p1", name := "Tea", price := some 10 } "f9" (by decide)).1

/-- Decrementing the only line of a submitted draft — an `original` line
at quantity `q + 1` — drops it to `q` and appends a companion `removed`
line carrying the removed count 1 and, as `originalQuantity`, the
submitted quantity found in `originalSubmittedItems`. -/
theorem decrement_singleton (p : Product) (b lid fid : String) (q : ℕ)
    (oq : Option ℕ) (sv : Option (List String)) (subm : List OrderItem)
    (s : OrderItem)
    (hsubm : subm.find? (fun o => o.product.id = p.id) = some s) :
    handleDecrementQuantity (some b) subm
      [{ product := p, quantity := q + 1, itemStatus := some ItemStatus.original,
         originalQuantity := oq, localId := some lid, serverItemIds := sv }] lid fid =
    [{ product := p, quantity := q, itemStatus := some ItemStatus.original,
       originalQuantity := oq, localId := some lid, serverItemIds := sv },
     { product := p, quantity := 1, itemStatus := some ItemStatus.removed,
       originalQuantity := some s.quantity, localId := some fid,
       serverItemIds := none }] := by
  simp [handleDecrementQuantity, List.findIdx?_cons, hsubm]

/-- Decrementing the `original` line of a submitted draft that already has
a companion `removed` line accumulates the removed count into that line
and refreshes its `originalQuantity` from the submitted quantity. -/
theorem decrement_pair (p : Product) (b lid fid fid2 : String) (q rq : ℕ)
    (oq roq : Option ℕ) (sv : Option (List String)) (subm : List OrderItem)
    (s : OrderItem)
    (hsubm : subm.find? (fun o => o.product.id = p.id) = some s) :
    handleDecrementQuantity (some b) subm
      [{ product := p, quantity := q + 1, itemStatus := some ItemStatus.original,
         originalQuantity := oq, localId := some lid, serverItemIds := sv },
       { product := p, quantity := rq, itemStatus := some ItemStatus.removed,
         originalQuantity := roq, localId := some fid, serverItemIds := none }]
      lid fid2 =
    [{ product := p, quantity := q, itemStatus := some ItemStatus.original,
       originalQuantity := oq, localId := some lid, serverItemIds := sv },
     { product := p, quantity := rq + 1, itemStatus := some ItemStatus.removed,
       originalQuantity := some s.quantity, localId := some fid,
       serverItemIds := none }] := by
  simp [handleDecrementQuantity, List.findIdx?_cons, hsubm, Nat.add_comm]

/-- Claim C2, amended: decrementing a submitted original line of 5 twice
yields the original at 3 plus a removed line of 2 with
`originalQuantity = 5`, exactly as claimed; but restoring that removed
line only reclassifies it to an `original` line at quantity 5 with its
`originalQuantity` cleared — the decremented original line stays at
quantity 3, so the draft then holds two original lines for the product
(quantities 3 and 5) rather than a single line at 5. -/
theorem c2_decrement_restore_roundtrip_amended (p : Product)
    (b lid fid fid2 : String) (oq : Option ℕ) (sv : Option (List String))
    (subm : List OrderItem) (s : OrderItem)
    (hsubm : subm.find? (fun o => o.product.id = p.id) = some s)
    (hq : s.quantity = 5)
    (hne : ¬ lid = fid) :
    handleDecrementQuantity (some b) subm
        (handleDecrementQuantity (some b) subm
          [{ product := p, quantity := 5, itemStatus := some ItemStatus.original,
             originalQuantity := oq, localId := some lid, serverItemIds := sv }]
          lid fid)
        lid fid2 =
      [{ product := p, quantity := 3, itemStatus := some ItemStatus.original,
         originalQuantity := oq, localId := some lid, serverItemIds := sv },
       { product := p, quantity := 2, itemStatus := some ItemStatus.removed,
         originalQuantity := some 5, localId := some fid, serverItemIds := none }]
    ∧ restoreRemoved
        [{ product := p, quantity := 3, itemStatus := some ItemStatus.original,
           originalQuantity := oq, localId := some lid, serverItemIds := sv },
         { product := p, quantity := 2, itemStatus := some ItemStatus.removed,
           originalQuantity := some 5, localId := some fid, serverItemIds := none }]
        { product := p, quantity := 2, itemStatus := some ItemStatus.removed,
          originalQuantity := some 5, localId := some fid, serverItemIds := none } =
      [{ product := p, quantity := 3, itemStatus := some ItemStatus.original,
         originalQuantity := oq, localId := some lid, serverItemIds := sv },
       { product := p, quantity := 5, itemStatus := some ItemStatus.original,
         originalQuantity := none, localId := some fid, serverItemIds := none }] := by
  constructor
  · have h1 := decrement_singleton p b lid fid 4 oq sv subm s hsubm
    have h2 := decrement_pair p b lid fid fid2 3 1 oq (some s.quantity) sv subm s hsubm
    rw [hq] at h1 h2
    norm_num at h1 h2
    rw [h1, h2]
  · simp [restoreRemoved, hne]

/-- The Tea product used in concrete scenarios. -/
def teaProduct : Product := { id := "p1", name := "Tea", price := some 10 }

/-- A submitted draft of 5 Tea (also serving as the last-submitted
originals). -/
def draftFiveTea : List OrderItem :=
  [{ product := teaProduct, quantity := 5, itemStatus := some ItemStatus.original,
     originalQuantity := some 5, localId := some "L1", serverItemIds := some ["s1"] }]

/-- The removed line present after decrementing `draftFiveTea` twice. -/
def removedTwoTea : OrderItem :=
  { product := teaProduct, quantity := 2, itemStatus := some ItemStatus.removed,
    originalQuantity := some 5, localId := some "R1", serverItemIds := none }

/-- Counterexample to C2 as stated: after decrementing the submitted
5-Tea line twice and restoring the removed line, the draft's lines for
`p1` are two originals at quantities 3 and 5 — not a single original line
at quantity 5. -/
theorem c2_restore_counterexample :
    ¬ (((restoreRemoved
          (handleDecrementQuantity (some "b1") draftFiveTea
            (handleDecrementQuantity (some "b1") draftFiveTea draftFiveTea "L1" "R1")
            "L1" "R2")
          removedTwoTea).filter (fun l => l.product.id = "p1")).map
        (fun l => (l.quantity, l.itemStatus)) =
      [(5, some ItemStatus.original)]) := by
  decide

/-- Witness for C2 (amended) at the concrete Tea scenario. -/
theorem c2_decrement_restore_roundtrip_amended_witness :
    handleDecrementQuantity (some "b1") draftFiveTea
        (handleDecrementQuantity (some "b1") draftFiveTea
          [{ product := teaProduct, quantity := 5,
             itemStatus := some ItemStatus.original, originalQuantity := some 5,
             localId := some "L1", serverItemIds := some ["s1"] }]
          "L1" "R1")
        "L1" "R2" =
      [{ product := teaProduct, quantity := 3, itemStatus := some ItemStatus.original,
         originalQuantity := some 5, localId := some "L1",
         serverItemIds := some ["s1"] },
       { product := teaProduct, quantity := 2, itemStatus := some ItemStatus.removed,
         originalQuantity := some 5, localId := some "R1", serverItemIds := none }] :=
  (c2_decrement_restore_roundtrip_amended teaProduct "b1" "L1" "R1" "R2"
    (some 5) (some ["s1"]) draftFiveTea
    { product := teaProduct, quantity := 5, itemStatus := some ItemStatus.original,
      originalQuantity := some 5, localId := some "L1", serverItemIds := some ["s1"] }
    (by decide) rfl (by decide)).1

/-- Counterexample to C8 as stated: decrementing the submitted 5-Tea
original once leaves a `removed` line with quantity 1 (the accumulated
removed count), not 0. -/
theorem c8_removed_quantity_counterexample :
    ¬ (∀ l ∈ handleDecrementQuantity (some "b1") draftFiveTea draftFiveTea "L1" "R1",
        l.itemStatus = some ItemStatus.removed → l.quantity = 0) := by
  decide

theorem buildLines_removed_quantity {pid : String} {group : List BillItem}
    {l : OrderItem} (hl : l ∈ buildLines pid group)
    (hrem : l.itemStatus = some ItemStatus.removed) : l.quantity = 0 := by
  unfold buildLines at hl
  rcases List.mem_append.mp hl with h1 | h1
  · revert h1
    cases group.filter (fun g => ¬ g.status = "canceled" ∧ 0 < g.quantity) with
    | nil => intro h1; cases h1
    | cons proto rest =>
      intro h1
      simp only [List.mem_singleton] at h1
      subst h1
      simp at hrem
  · revert h1
    cases group.filter (fun g => g.status = "canceled") with
    | nil => intro h1; cases h1
    | cons proto rest =>
      intro h1
      simp only [List.mem_singleton] at h1
      subst h1
      rfl

/-- The canceled server rows for product `p` inside a bill's item list:
rows whose resolved product id is `p` and whose status is `canceled`. -/
def canceledRowsOf (items : List BillItem) (p : String) : List BillItem :=
  (items.filter (fun bi => pidOf bi = some p)).filter
    (fun g => g.status = "canceled")

/-- Claim C8, amended: removed lines produced by sync have quantity 0 and
carry, as `originalQuantity`, the summed quantity of their product's
canceled server rows; removed lines never contribute to the subtotal (the
subtotal filters them out regardless of their quantity); but a removed
line produced — or updated — by decrementing a submitted original carries
the accumulated removed count as its quantity (1 after one decrement,
incremented on each further decrement) — not 0 — with `originalQuantity`
preserving the submitted amount; and restore leaves no removed line with
the restored line's `localId`. -/
theorem c8_removed_line_invariants_amended :
    (∀ (items : List BillItem) (l : OrderItem), l ∈ mapServerItems items →
        l.itemStatus = some ItemStatus.removed →
        l.quantity = 0
        ∧ l.originalQuantity =
            some (((canceledRowsOf items l.product.id).map
              (fun it => it.quantity)).sum))
    ∧ (∀ (pre post : List OrderItem) (l : OrderItem),
        l.itemStatus = some ItemStatus.removed →
        getTotalOrderCost (pre ++ l :: post) = getTotalOrderCost (pre ++ post))
    ∧ (∀ (p : Product) (b lid fid : String) (q : ℕ) (oq : Option ℕ)
        (sv : Option (List String)) (subm : List OrderItem) (s : OrderItem),
        subm.find? (fun o => o.product.id = p.id) = some s →
        handleDecrementQuantity (some b) subm
          [{ product := p, quantity := q + 1, itemStatus := some ItemStatus.original,
             originalQuantity := oq, localId := some lid, serverItemIds := sv }]
          lid fid =
        [{ product := p, quantity := q, itemStatus := some ItemStatus.original,
           originalQuantity := oq, localId := some lid, serverItemIds := sv },
         { product := p, quantity := 1, itemStatus := some ItemStatus.removed,
           originalQuantity := some s.quantity, localId := some fid,
           serverItemIds := none }])
    ∧ (∀ (p : Product) (b lid fid fid2 : String) (q rq : ℕ) (oq roq : Option ℕ)
        (sv : Option (List String)) (subm : List OrderItem) (s : OrderItem),
        subm.find? (fun o => o.product.id = p.id) = some s →
        handleDecrementQuantity (some b) subm
          [{ product := p, quantity := q + 1, itemStatus := some ItemStatus.original,
             originalQuantity := oq, localId := some lid, serverItemIds := sv },
           { product := p, quantity := rq, itemStatus := some ItemStatus.removed,
             originalQuantity := roq, localId := some fid, serverItemIds := none }]
          lid fid2 =
        [{ product := p, quantity := q, itemStatus := some ItemStatus.original,
           originalQuantity := oq, localId := some lid, serverItemIds := sv },
         { product := p, quantity := rq + 1, itemStatus := some ItemStatus.removed,
           originalQuantity := some s.quantity, localId := some fid,
           serverItemIds := none }])
    ∧ (∀ (items : List OrderItem) (item l : OrderItem),
        l ∈ restoreRemoved items item →
        l.itemStatus = some ItemStatus.removed →
        l ∈ items ∧ ¬ l.localId = item.localId) := by
  refine ⟨?_, ?_, ?_, ?_, ?_⟩
  · intro items l hl hrem
    have hmem : l ∈ (mapServerItems items).filter
        (fun l' => l'.product.id = l.product.id ∧
          l'.itemStatus = some ItemStatus.removed) :=
      List.mem_filter.mpr ⟨hl, by simp [hrem]⟩
    rw [filter_mapServerItems items l.product.id _
      (fun l' h => (of_decide_eq_true h).1)] at hmem
    rw [buildLines_filter_removed_eval] at hmem
    unfold canceledRowsOf
    revert hmem
    cases hC : (items.filter (fun bi => pidOf bi = some l.product.id)).filter
        (fun g => g.status = "canceled") with
    | nil => intro hmem; cases hmem
    | cons proto rest =>
      intro hmem
      simp only [List.mem_singleton] at hmem
      refine ⟨?_, ?_⟩ <;> rw [hmem]
  · intro pre post l hrem
    unfold getTotalOrderCost
    rw [List.filter_append, List.filter_append, List.filter_cons,
      if_neg (by simp [hrem])]
  · intro p b lid fid q oq sv subm s hsubm
    exact decrement_singleton p b lid fid q oq sv subm s hsubm
  · intro p b lid fid fid2 q rq oq roq sv subm s hsubm
    exact decrement_pair p b lid fid fid2 q rq oq roq sv subm s hsubm
  · intro items item l hl hrem
    rcases List.mem_map.mp hl with ⟨a, ha, hfa⟩
    by_cases hc : a.localId = item.localId
    · rw [if_pos hc] at hfa
      rw [← hfa] at hrem
      simp at hrem
    · rw [if_neg hc] at hfa
      subst hfa
      exact ⟨ha, hc⟩

/-- The removed line produced by syncing `splitRowsItems` (one canceled
Tea row of quantity 1 collapses into it). -/
def syncedRemovedTea : OrderItem :=
  { product := { id := "p1", name := "Tea", price := some 10 }, quantity := 0,
    itemStatus := some ItemStatus.removed, originalQuantity := some 1,
    localId := some "srv-removed-p1", serverItemIds := some ["s3"] }

/-- Witness for C8 (amended): the sync-produced removed Tea line has
quantity 0 and `originalQuantity` equal to the summed canceled quantity;
a removed Tea line contributes nothing to the subtotal; one decrement of
the submitted 5-Tea original creates a removed line at quantity 1 with
`originalQuantity = 5`; and a further decrement accumulates it to 2. -/
theorem c8_removed_line_invariants_amended_witness :
    (syncedRemovedTea.quantity = 0
      ∧ syncedRemovedTea.originalQuantity =
          some (((canceledRowsOf splitRowsItems "p1").map
            (fun it => it.quantity)).sum))
    ∧ getTotalOrderCost ([] ++ removedTwoTea :: []) = getTotalOrderCost ([] ++ [])
    ∧ handleDecrementQuantity (some "b1") draftFiveTea
        [{ product := teaProduct, quantity := 4 + 1,
           itemStatus := some ItemStatus.original, originalQuantity := some 5,
           localId := some "L1", serverItemIds := some ["s1"] }] "L1" "R1" =
      [{ product := teaProduct, quantity := 4, itemStatus := some ItemStatus.original,
         originalQuantity := some 5, localId := some "L1",
         serverItemIds := some ["s1"] },
       { product := teaProduct, quantity := 1, itemStatus := some ItemStatus.removed,
         originalQuantity := some 5, localId := some "R1", serverItemIds := none }]
    ∧ handleDecrementQuantity (some "b1") draftFiveTea
        [{ product := teaProduct, quantity := 3 + 1,
           itemStatus := some ItemStatus.original, originalQuantity := some 5,
           localId := some "L1", serverItemIds := some ["s1"] },
         { product := teaProduct, quantity := 1, itemStatus := some ItemStatus.removed,
           originalQuantity := some 5, localId := some "R1", serverItemIds := none }]
        "L1" "R2" =
      [{ product := teaProduct, quantity := 3, itemStatus := some ItemStatus.original,
         originalQuantity := some 5, localId := some "L1",
         serverItemIds := some ["s1"] },
       { product := teaProduct, quantity := 1 + 1, itemStatus := some ItemStatus.removed,
         originalQuantity := some 5, localId := some "R1", serverItemIds := none }] :=
  ⟨c8_removed_line_invariants_amended.1 splitRowsItems syncedRemovedTea
     (by decide) rfl,
   c8_removed_line_invariants_amended.2.1 [] [] removedTwoTea rfl,
   c8_removed_line_invariants_amended.2.2.1 teaProduct "b1" "L1" "R1" 4 (some 5)
     (some ["s1"]) draftFiveTea
     { product := teaProduct, quantity := 5, itemStatus := some ItemStatus.original,
       originalQuantity := some 5, localId := some "L1",
       serverItemIds := some ["s1"] }
     (by decide),
   c8_removed_line_invariants_amended.2.2.2.1 teaProduct "b1" "L1" "R1" "R2" 3 1
     (some 5) (some 5) (some ["s1"]) draftFiveTea
     { product := teaProduct, quantity := 5, itemStatus := some ItemStatus.original,
       originalQuantity := some 5, localId := some "L1",
       serverItemIds := some ["s1"] }
     (by decide)⟩

end CaptainApp
